import Mathlib

/-
Verification of the reader-writer lock in src/read_write_lock.h
(namespace ReadWriterLock, class read_write_lock).

The lock is embedded as a labelled transition system: a global machine
state holds the two atomic counters (reader_count, writer_waiting), the
two mutexes, and a program-point (phase) for each of N threads.  Every
atomic action of the four operations start_read, end_read, start_write,
end_write is one step of the relation Step.  Condition-variable waits are
modelled with the wake-at-any-time over-approximation, which is sound for
the safety properties proved here and is in fact allowed behaviour of
std::condition_variable (spurious wakeups); the predicate of each wait is
re-checked under the corresponding mutex exactly as in the source.

Machine integers: writer_waiting is a std::atomic_char, an 8-bit cell
whose arithmetic wraps, modelled as a Nat kept below 256 with explicit
mod 256 arithmetic.  reader_count is a std::atomic_int: the relation Step
models it as an unbounded Int, and the relation Step32 on the same state
type makes its 32-bit two-complement wrap explicit (fetch_add and
fetch_sub act modulo 2 to the 32 on the signed value); Step32 is used for
the claims where that wrap matters.
-/

set_option linter.unusedVariables false

/-- Program points of a thread using the lock.  idle is outside any lock
operation; rCheck, rAcqRead, rWaitCheck, rInc are the points inside
start_read (lines 45 to 52 of src/read_write_lock.h); reading is between a
returned start_read and the matching end_read; erNotify is inside end_read
(lines 55 to 58); swAcq, swIncr, swCheck, swSleep are inside start_write
(lines 67 to 74); writing is between a returned start_write and the
matching end_write; ewNotifyW, ewUnlock, ewNotifyR are inside end_write
(lines 81 to 86). -/
inductive Phase where
  | idle
  | rCheck
  | rAcqRead
  | rWaitCheck
  | rInc
  | reading
  | erNotify
  | swAcq
  | swIncr
  | swCheck
  | swSleep
  | writing
  | ewNotifyW
  | ewUnlock
  | ewNotifyR
  deriving DecidableEq

/-- Labels naming the atomic action performed by a step. -/
inductive Label where
  | callStartRead
  | checkWriter
  | acqReadMutex
  | waitCheck
  | incReader
  | decReader
  | notifyWaitingToWrite
  | callStartWrite
  | acqWriteMutex
  | incWriterWaiting
  | checkReaders
  | reacqWriteMutex
  | decWriterWaiting
  | unlockWriteMutex
  | notifyWaitingToRead
  deriving DecidableEq

/-- The constant NOT_WRITING of src/read_write_lock.h line 103: the char 0,
as the 8-bit value it denotes. -/
def NOT_WRITING : Nat := 0

/-- The C++ bool-to-integral conversion, used where the source compares the
bool result of writer_is_not_writing with the char NOT_WRITING (line 47). -/
def boolToChar (b : Bool) : Nat := if b then 1 else 0

/-- std::atomic compare_exchange_strong on an 8-bit cell: given the cell
value, the expected value and the desired value, returns the new cell
value, the new value of the expected out-parameter, and the success flag.
On success the cell takes the desired value; on failure the expected
out-parameter takes the observed cell value. -/
def compare_exchange_strong (cell expected desired : Nat) : Nat × Nat × Bool :=
  if cell = expected then (desired, expected, true) else (cell, cell, false)

/-- The private member writer_is_not_writing of src/read_write_lock.h lines
89 to 96: runs compare_exchange_strong on writer_waiting with expected and
desired both NOT_WRITING, then returns whether the (possibly updated)
expected out-parameter equals NOT_WRITING.  Input is the current value of
writer_waiting; output is the new value of writer_waiting and the bool
result. -/
def writer_is_not_writing (ww : Nat) : Nat × Bool :=
  let writer_status := NOT_WRITING
  let new_writer_status := NOT_WRITING
  let r := compare_exchange_strong ww writer_status new_writer_status
  (r.1, r.2.1 == NOT_WRITING)

/-- Modelled from the spec, section 9: the writer-pending indicator is
functionally just an atomic load of the pending counter followed by a zero
test, leaving the counter unchanged.  Used only to state the refinement
claim about writer_is_not_writing. -/
def writer_is_not_writing_spec (ww : Nat) : Nat × Bool := (ww, ww == 0)

/-- Global state of the lock together with the program points of N client
threads.  reader_count is the std::atomic_int of line 97; writer_waiting is
the std::atomic_char of line 98 (an 8-bit value, always below 256);
write_mutex and read_mutex (lines 101 to 102) record their owning thread,
none when unlocked.  The condition variables need no state: waits are
modelled with wake-at-any-time re-checks. -/
structure Machine (N : Nat) where
  reader_count : Int
  writer_waiting : Nat
  write_mutex : Option (Fin N)
  read_mutex : Option (Fin N)
  phase : Fin N → Phase

/-- The constructor of read_write_lock, line 38: no readers, no writer
pending, both mutexes free, every thread outside the lock operations. -/
def initMachine (N : Nat) : Machine N :=
  { reader_count := 0
    writer_waiting := 0
    write_mutex := none
    read_mutex := none
    phase := fun _ => Phase.idle }

/-- One atomic action of one thread, following src/read_write_lock.h line
by line.  Threads call start_read or start_write only from idle, end_read
only while holding a read admission and end_write only while holding the
write admission: the caller contract of the header. -/
inductive Step {N : Nat} : Machine N → Fin N → Label → Machine N → Prop where
  | callStartRead (s : Machine N) (t : Fin N) :
      s.phase t = Phase.idle →
      Step s t Label.callStartRead
        { s with phase := Function.update s.phase t Phase.rCheck }
  | checkWriterEnter (s : Machine N) (t : Fin N) :
      s.phase t = Phase.rCheck →
      boolToChar (writer_is_not_writing s.writer_waiting).2 ≠ NOT_WRITING →
      Step s t Label.checkWriter
        { s with writer_waiting := (writer_is_not_writing s.writer_waiting).1
                 phase := Function.update s.phase t Phase.rAcqRead }
  | checkWriterSkip (s : Machine N) (t : Fin N) :
      s.phase t = Phase.rCheck →
      boolToChar (writer_is_not_writing s.writer_waiting).2 = NOT_WRITING →
      Step s t Label.checkWriter
        { s with writer_waiting := (writer_is_not_writing s.writer_waiting).1
                 phase := Function.update s.phase t Phase.rInc }
  | acqReadMutex (s : Machine N) (t : Fin N) :
      s.phase t = Phase.rAcqRead →
      s.read_mutex = none →
      Step s t Label.acqReadMutex
        { s with read_mutex := some t
                 phase := Function.update s.phase t Phase.rWaitCheck }
  | waitCheckTrue (s : Machine N) (t : Fin N) :
      s.phase t = Phase.rWaitCheck →
      s.read_mutex = some t →
      (writer_is_not_writing s.writer_waiting).2 = true →
      Step s t Label.waitCheck
        { s with writer_waiting := (writer_is_not_writing s.writer_waiting).1
                 read_mutex := none
                 phase := Function.update s.phase t Phase.rInc }
  | waitCheckFalse (s : Machine N) (t : Fin N) :
      s.phase t = Phase.rWaitCheck →
      s.read_mutex = some t →
      (writer_is_not_writing s.writer_waiting).2 = false →
      Step s t Label.waitCheck
        { s with writer_waiting := (writer_is_not_writing s.writer_waiting).1
                 read_mutex := none
                 phase := Function.update s.phase t Phase.rAcqRead }
  | incReader (s : Machine N) (t : Fin N) :
      s.phase t = Phase.rInc →
      Step s t Label.incReader
        { s with reader_count := s.reader_count + 1
                 phase := Function.update s.phase t Phase.reading }
  | decReader (s : Machine N) (t : Fin N) :
      s.phase t = Phase.reading →
      Step s t Label.decReader
        { s with reader_count := s.reader_count - 1
                 phase := Function.update s.phase t Phase.erNotify }
  | notifyAfterRead (s : Machine N) (t : Fin N) :
      s.phase t = Phase.erNotify →
      Step s t Label.notifyWaitingToWrite
        { s with phase := Function.update s.phase t Phase.idle }
  | callStartWrite (s : Machine N) (t : Fin N) :
      s.phase t = Phase.idle →
      Step s t Label.callStartWrite
        { s with phase := Function.update s.phase t Phase.swAcq }
  | acqWriteMutex (s : Machine N) (t : Fin N) :
      s.phase t = Phase.swAcq →
      s.write_mutex = none →
      Step s t Label.acqWriteMutex
        { s with write_mutex := some t
                 phase := Function.update s.phase t Phase.swIncr }
  | incWriterWaiting (s : Machine N) (t : Fin N) :
      s.phase t = Phase.swIncr →
      Step s t Label.incWriterWaiting
        { s with writer_waiting := (s.writer_waiting + 1) % 256
                 phase := Function.update s.phase t Phase.swCheck }
  | checkReadersZero (s : Machine N) (t : Fin N) :
      s.phase t = Phase.swCheck →
      s.reader_count ≤ 0 →
      Step s t Label.checkReaders
        { s with phase := Function.update s.phase t Phase.writing }
  | checkReadersPos (s : Machine N) (t : Fin N) :
      s.phase t = Phase.swCheck →
      s.reader_count > 0 →
      Step s t Label.checkReaders
        { s with write_mutex := none
                 phase := Function.update s.phase t Phase.swSleep }
  | reacqWriteMutex (s : Machine N) (t : Fin N) :
      s.phase t = Phase.swSleep →
      s.write_mutex = none →
      Step s t Label.reacqWriteMutex
        { s with write_mutex := some t
                 phase := Function.update s.phase t Phase.swCheck }
  | decWriterWaiting (s : Machine N) (t : Fin N) :
      s.phase t = Phase.writing →
      Step s t Label.decWriterWaiting
        { s with writer_waiting := (s.writer_waiting + 255) % 256
                 phase := Function.update s.phase t Phase.ewNotifyW }
  | notifyWritersEnd (s : Machine N) (t : Fin N) :
      s.phase t = Phase.ewNotifyW →
      Step s t Label.notifyWaitingToWrite
        { s with phase := Function.update s.phase t Phase.ewUnlock }
  | unlockWriteMutex (s : Machine N) (t : Fin N) :
      s.phase t = Phase.ewUnlock →
      Step s t Label.unlockWriteMutex
        { s with write_mutex := none
                 phase := Function.update s.phase t Phase.ewNotifyR }
  | notifyReadersEnd (s : Machine N) (t : Fin N) :
      s.phase t = Phase.ewNotifyR →
      Step s t Label.notifyWaitingToRead
        { s with phase := Function.update s.phase t Phase.idle }

/-- Reachability: reflexive-transitive closure of Step from a given state. -/
inductive Reach {N : Nat} : Machine N → Machine N → Prop where
  | refl (s : Machine N) : Reach s s
  | tail (s1 s2 s3 : Machine N) (t : Fin N) (l : Label) :
      Reach s1 s2 → Step s2 t l s3 → Reach s1 s3

/-- Phases at which a thread owns write_mutex: from the acquisition at the
top of start_write (line 68) through the manual unlock in end_write (line
84).  The unique_lock is released from its wrapper at line 73, so the mutex
stays locked across the return of start_write. -/
def needsWriteMutex : Phase → Bool
  | Phase.swIncr => true
  | Phase.swCheck => true
  | Phase.writing => true
  | Phase.ewNotifyW => true
  | Phase.ewUnlock => true
  | _ => false

/-- Ownership invariant of write_mutex: every thread at a phase that owns
the mutex is its recorded owner. -/
def WInv {N : Nat} (s : Machine N) : Prop :=
  ∀ u, needsWriteMutex (s.phase u) = true → s.write_mutex = some u

/-- Number of threads currently holding a read admission, as an integer. -/
def readerSum {N : Nat} (p : Fin N → Phase) : Int :=
  ∑ u, if p u = Phase.reading then (1 : Int) else 0

/-- Two-thread state in which thread 0 has returned from start_write and
holds the write admission while thread 1 is outside the lock. -/
def wState : Machine 2 :=
  { reader_count := 0
    writer_waiting := 1
    write_mutex := some 0
    read_mutex := none
    phase := fun t => if t = 0 then Phase.writing else Phase.idle }

/-- Two-thread state in which thread 0 still holds the write admission and
thread 1 holds a read admission: the state the inverted test of line 47
makes reachable. -/
def wrState : Machine 2 :=
  { reader_count := 1
    writer_waiting := 1
    write_mutex := some 0
    read_mutex := none
    phase := fun t => if t = 0 then Phase.writing else Phase.reading }

/-- Two-thread state in which thread 0 holds the write admission and thread
1 has called start_write and is blocked acquiring write_mutex. -/
def waState : Machine 2 :=
  { reader_count := 0
    writer_waiting := 1
    write_mutex := some 0
    read_mutex := none
    phase := fun t => if t = 0 then Phase.writing else Phase.swAcq }

/-- One full start_write and end_write cycle by thread t, listed action by
action.  With no readers the reader check succeeds at once, so the cycle is
these eight actions. -/
def WriteCycle {N : Nat} (t : Fin N) (s s' : Machine N) : Prop :=
  ∃ s1 s2 s3 s4 s5 s6 s7,
    Step s t Label.callStartWrite s1 ∧
    Step s1 t Label.acqWriteMutex s2 ∧
    Step s2 t Label.incWriterWaiting s3 ∧
    Step s3 t Label.checkReaders s4 ∧
    Step s4 t Label.decWriterWaiting s5 ∧
    Step s5 t Label.notifyWaitingToWrite s6 ∧
    Step s6 t Label.unlockWriteMutex s7 ∧
    Step s7 t Label.notifyWaitingToRead s'

/-- n back-to-back write cycles by thread t. -/
def NCycles {N : Nat} (t : Fin N) : Nat → Machine N → Machine N → Prop
  | 0, s, s' => s' = s
  | n + 1, s, s' => ∃ m, WriteCycle t s m ∧ NCycles t n m s'

/-- State with one active reader (thread 0) and the first k writer threads
pending: each has run the writer_waiting increment of line 69 and is
blocked in the reader-drain wait of line 71, which releases write_mutex
while waiting.  writer_waiting carries only the 8-bit value k mod 256. -/
def wrapState (k : Nat) : Machine 257 :=
  { reader_count := 1
    writer_waiting := k % 256
    write_mutex := none
    read_mutex := none
    phase := fun t =>
      if t.val = 0 then Phase.reading
      else if t.val ≤ k then Phase.swSleep
      else Phase.idle }

/-- Concrete one-thread state: the thread is inside start_write, holding
write_mutex, about to increment writer_waiting.  Used by a witness. -/
def wit1 : Machine 1 :=
  { reader_count := 0
    writer_waiting := 0
    write_mutex := some 0
    read_mutex := none
    phase := fun _ => Phase.swIncr }

/-- Concrete one-thread state: the thread holds the write admission.  Used
by a witness. -/
def wit2 : Machine 1 :=
  { reader_count := 0
    writer_waiting := 1
    write_mutex := some 0
    read_mutex := none
    phase := fun _ => Phase.writing }

/-- Concrete one-thread state: the thread holds a read admission.  Used by
a witness. -/
def wit3 : Machine 1 :=
  { reader_count := 1
    writer_waiting := 0
    write_mutex := none
    read_mutex := none
    phase := fun _ => Phase.reading }

/-- The 32-bit two-complement wrap of std::atomic_int arithmetic: the
representative of x modulo 2 to the 32 lying in the signed int range. -/
def wrap32 (x : Int) : Int := (x + 2147483648) % 4294967296 - 2147483648

/-- The same transition relation as Step, with the 32-bit wrap of the
std::atomic_int reader_count made explicit: the fetch_add of line 51 and
the fetch_sub of line 56 act modulo 2 to the 32 on the signed value.  All
other actions are identical. -/
inductive Step32 {N : Nat} : Machine N → Fin N → Label → Machine N → Prop where
  | callStartRead (s : Machine N) (t : Fin N) :
      s.phase t = Phase.idle →
      Step32 s t Label.callStartRead
        { s with phase := Function.update s.phase t Phase.rCheck }
  | checkWriterEnter (s : Machine N) (t : Fin N) :
      s.phase t = Phase.rCheck →
      boolToChar (writer_is_not_writing s.writer_waiting).2 ≠ NOT_WRITING →
      Step32 s t Label.checkWriter
        { s with writer_waiting := (writer_is_not_writing s.writer_waiting).1
                 phase := Function.update s.phase t Phase.rAcqRead }
  | checkWriterSkip (s : Machine N) (t : Fin N) :
      s.phase t = Phase.rCheck →
      boolToChar (writer_is_not_writing s.writer_waiting).2 = NOT_WRITING →
      Step32 s t Label.checkWriter
        { s with writer_waiting := (writer_is_not_writing s.writer_waiting).1
                 phase := Function.update s.phase t Phase.rInc }
  | acqReadMutex (s : Machine N) (t : Fin N) :
      s.phase t = Phase.rAcqRead →
      s.read_mutex = none →
      Step32 s t Label.acqReadMutex
        { s with read_mutex := some t
                 phase := Function.update s.phase t Phase.rWaitCheck }
  | waitCheckTrue (s : Machine N) (t : Fin N) :
      s.phase t = Phase.rWaitCheck →
      s.read_mutex = some t →
      (writer_is_not_writing s.writer_waiting).2 = true →
      Step32 s t Label.waitCheck
        { s with writer_waiting := (writer_is_not_writing s.writer_waiting).1
                 read_mutex := none
                 phase := Function.update s.phase t Phase.rInc }
  | waitCheckFalse (s : Machine N) (t : Fin N) :
      s.phase t = Phase.rWaitCheck →
      s.read_mutex = some t →
      (writer_is_not_writing s.writer_waiting).2 = false →
      Step32 s t Label.waitCheck
        { s with writer_waiting := (writer_is_not_writing s.writer_waiting).1
                 read_mutex := none
                 phase := Function.update s.phase t Phase.rAcqRead }
  | incReader (s : Machine N) (t : Fin N) :
      s.phase t = Phase.rInc →
      Step32 s t Label.incReader
        { s with reader_count := wrap32 (s.reader_count + 1)
                 phase := Function.update s.phase t Phase.reading }
  | decReader (s : Machine N) (t : Fin N) :
      s.phase t = Phase.reading →
      Step32 s t Label.decReader
        { s with reader_count := wrap32 (s.reader_count - 1)
                 phase := Function.update s.phase t Phase.erNotify }
  | notifyAfterRead (s : Machine N) (t : Fin N) :
      s.phase t = Phase.erNotify →
      Step32 s t Label.notifyWaitingToWrite
        { s with phase := Function.update s.phase t Phase.idle }
  | callStartWrite (s : Machine N) (t : Fin N) :
      s.phase t = Phase.idle →
      Step32 s t Label.callStartWrite
        { s with phase := Function.update s.phase t Phase.swAcq }
  | acqWriteMutex (s : Machine N) (t : Fin N) :
      s.phase t = Phase.swAcq →
      s.write_mutex = none →
      Step32 s t Label.acqWriteMutex
        { s with write_mutex := some t
                 phase := Function.update s.phase t Phase.swIncr }
  | incWriterWaiting (s : Machine N) (t : Fin N) :
      s.phase t = Phase.swIncr →
      Step32 s t Label.incWriterWaiting
        { s with writer_waiting := (s.writer_waiting + 1) % 256
                 phase := Function.update s.phase t Phase.swCheck }
  | checkReadersZero (s : Machine N) (t : Fin N) :
      s.phase t = Phase.swCheck →
      s.reader_count ≤ 0 →
      Step32 s t Label.checkReaders
        { s with phase := Function.update s.phase t Phase.writing }
  | checkReadersPos (s : Machine N) (t : Fin N) :
      s.phase t = Phase.swCheck →
      s.reader_count > 0 →
      Step32 s t Label.checkReaders
        { s with write_mutex := none
                 phase := Function.update s.phase t Phase.swSleep }
  | reacqWriteMutex (s : Machine N) (t : Fin N) :
      s.phase t = Phase.swSleep →
      s.write_mutex = none →
      Step32 s t Label.reacqWriteMutex
        { s with write_mutex := some t
                 phase := Function.update s.phase t Phase.swCheck }
  | decWriterWaiting (s : Machine N) (t : Fin N) :
      s.phase t = Phase.writing →
      Step32 s t Label.decWriterWaiting
        { s with writer_waiting := (s.writer_waiting + 255) % 256
                 phase := Function.update s.phase t Phase.ewNotifyW }
  | notifyWritersEnd (s : Machine N) (t : Fin N) :
      s.phase t = Phase.ewNotifyW →
      Step32 s t Label.notifyWaitingToWrite
        { s with phase := Function.update s.phase t Phase.ewUnlock }
  | unlockWriteMutex (s : Machine N) (t : Fin N) :
      s.phase t = Phase.ewUnlock →
      Step32 s t Label.unlockWriteMutex
        { s with write_mutex := none
                 phase := Function.update s.phase t Phase.ewNotifyR }
  | notifyReadersEnd (s : Machine N) (t : Fin N) :
      s.phase t = Phase.ewNotifyR →
      Step32 s t Label.notifyWaitingToRead
        { s with phase := Function.update s.phase t Phase.idle }

/-- Reachability under the 32-bit step relation. -/
inductive Reach32 {N : Nat} : Machine N → Machine N → Prop where
  | refl (s : Machine N) : Reach32 s s
  | tail (s1 s2 s3 : Machine N) (t : Fin N) (l : Label) :
      Reach32 s1 s2 → Step32 s2 t l s3 → Reach32 s1 s3

/-- State of the wrap counterexample after the first k of the 2 to the 31
threads have each completed one start_read (no writer ever appears, so each
goes through the immediately satisfied wait branch): k read admissions are
outstanding and reader_count holds the 32-bit wrap of k. -/
def pile32State (k : Nat) : Machine 2147483648 :=
  { reader_count := wrap32 (k : Int)
    writer_waiting := 0
    write_mutex := none
    read_mutex := none
    phase := fun t => if t.val < k then Phase.reading else Phase.idle }

/-- Induction principle: a property holding initially and preserved by
every step holds in every reachable state. -/
theorem reach_invariant {N : Nat} (P : Machine N → Prop) (s0 s : Machine N)
    (h0 : P s0) (hstep : ∀ s1 t l s2, P s1 → Step s1 t l s2 → P s2)
    (h : Reach s0 s) : P s := by
  induction h with
  | refl => exact h0
  | tail s2 s3 t l hr hs ih => exact hstep s2 t l s3 ih hs

/-- Two machine states with equal fields are equal. -/
theorem machineEq {N : Nat} (a b : Machine N)
    (h1 : a.reader_count = b.reader_count)
    (h2 : a.writer_waiting = b.writer_waiting)
    (h3 : a.write_mutex = b.write_mutex)
    (h4 : a.read_mutex = b.read_mutex)
    (h5 : a.phase = b.phase) : a = b := by
  cases a
  cases b
  simp_all

/-- C9: writer_is_not_writing is functionally an atomic load followed by a
zero test: the compare_exchange_strong with expected = desired =
NOT_WRITING never changes writer_waiting, and the returned flag is true
exactly when writer_waiting was 0 at the exchange. -/
theorem writer_is_not_writing_eq_load_zero_test (ww : Nat) :
    writer_is_not_writing ww = writer_is_not_writing_spec ww := by
  unfold writer_is_not_writing writer_is_not_writing_spec compare_exchange_strong NOT_WRITING
  by_cases h : ww = 0 <;> simp [h]

/-- Witness for C9 at a concrete input. -/
theorem writer_is_not_writing_eq_load_zero_test_witness :
    writer_is_not_writing 3 = writer_is_not_writing_spec 3 :=
  writer_is_not_writing_eq_load_zero_test 3

/-- C6: end_write performs its actions in source order (lines 81 to 86):
from the write-admitted point the one possible action decrements the
pending-writer marker modulo 256; then the one possible action notifies
waiting_to_write; then the one possible action unlocks write_mutex (waking
writers blocked on exclusive admission); and only after that the one
possible action notifies waiting_to_read. -/
theorem end_write_order {N : Nat} (s : Machine N) (t : Fin N) (l : Label)
    (s' : Machine N) (h : Step s t l s') :
    (s.phase t = Phase.writing →
       l = Label.decWriterWaiting ∧ s'.phase t = Phase.ewNotifyW ∧
       s'.writer_waiting = (s.writer_waiting + 255) % 256 ∧
       s'.write_mutex = s.write_mutex) ∧
    (s.phase t = Phase.ewNotifyW →
       l = Label.notifyWaitingToWrite ∧ s'.phase t = Phase.ewUnlock ∧
       s'.writer_waiting = s.writer_waiting ∧ s'.write_mutex = s.write_mutex) ∧
    (s.phase t = Phase.ewUnlock →
       l = Label.unlockWriteMutex ∧ s'.phase t = Phase.ewNotifyR ∧
       s'.write_mutex = none) ∧
    (s.phase t = Phase.ewNotifyR →
       l = Label.notifyWaitingToRead ∧ s'.phase t = Phase.idle) := by
  cases h <;> simp_all

/-- Witness for C6: the first end_write action at a concrete state. -/
theorem end_write_order_witness :
    ∃ s' : Machine 1, Step wit2 0 Label.decWriterWaiting s' ∧
      s'.writer_waiting = 0 ∧ s'.phase 0 = Phase.ewNotifyW := by
  have hstep := Step.decWriterWaiting wit2 0 rfl
  have h := (end_write_order wit2 0 Label.decWriterWaiting _ hstep).1 rfl
  exact ⟨_, hstep, by rw [h.2.2.1]; decide, h.2.1⟩

/-- C8: end_read (lines 55 to 58) decrements reader_count by exactly one
and then signals waiting_to_write, and changes nothing else: writer_waiting,
both mutexes and every other thread are untouched by both of its actions. -/
theorem end_read_effect {N : Nat} (s : Machine N) (t : Fin N) (l : Label)
    (s' : Machine N) (h : Step s t l s') :
    (s.phase t = Phase.reading →
       l = Label.decReader ∧
       s'.reader_count = s.reader_count - 1 ∧
       s'.writer_waiting = s.writer_waiting ∧
       s'.write_mutex = s.write_mutex ∧
       s'.read_mutex = s.read_mutex ∧
       s'.phase t = Phase.erNotify ∧
       (∀ u, u ≠ t → s'.phase u = s.phase u)) ∧
    (s.phase t = Phase.erNotify →
       l = Label.notifyWaitingToWrite ∧
       s'.reader_count = s.reader_count ∧
       s'.writer_waiting = s.writer_waiting ∧
       s'.write_mutex = s.write_mutex ∧
       s'.read_mutex = s.read_mutex ∧
       s'.phase t = Phase.idle ∧
       (∀ u, u ≠ t → s'.phase u = s.phase u)) := by
  cases h <;> simp_all [Function.update]

/-- Witness for C8: the decrement action of end_read at a concrete state. -/
theorem end_read_effect_witness :
    ∃ s' : Machine 1, Step wit3 0 Label.decReader s' ∧
      s'.reader_count = 0 ∧ s'.writer_waiting = 0 ∧ s'.phase 0 = Phase.erNotify := by
  have hstep := Step.decReader wit3 0 rfl
  have h := (end_read_effect wit3 0 Label.decReader _ hstep).1 rfl
  exact ⟨_, hstep, by rw [h.2.1]; decide, by rw [h.2.2.1]; decide, h.2.2.2.2.2.1⟩

/-- C4: inside start_write (lines 67 to 74) the pending marker comes first:
the action at the marking point increments writer_waiting by one modulo 256
and leads to the reader-count check; the check point is reachable only from
the marking point or from the wait; the wait is entered only from the check
point and only while reader_count is positive; start_write reaches its
admitted point only by an action guarded by reader_count having drained to
at most zero; and a thread holding a read admission is never blocked: its
end_read actions are always enabled, so readers admitted before the marker
can finish and decrement the count. -/
theorem start_write_marks_then_drains {N : Nat} (s : Machine N) (t : Fin N) :
    (∀ l s', Step s t l s' →
      (s.phase t = Phase.swIncr →
         s'.writer_waiting = (s.writer_waiting + 1) % 256 ∧
         s'.phase t = Phase.swCheck) ∧
      (s.phase t = Phase.swCheck → s'.phase t = Phase.writing →
         s.reader_count ≤ 0) ∧
      (s'.phase t = Phase.swCheck →
         s.phase t = Phase.swIncr ∨ s.phase t = Phase.swSleep) ∧
      (s'.phase t = Phase.swSleep →
         s.phase t = Phase.swCheck ∧ s.reader_count > 0)) ∧
    (s.phase t = Phase.reading → ∃ s', Step s t Label.decReader s') ∧
    (s.phase t = Phase.erNotify → ∃ s', Step s t Label.notifyWaitingToWrite s') := by
  refine ⟨?_, ?_, ?_⟩
  · intro l s' h
    cases h <;> simp_all
  · intro h
    exact ⟨_, Step.decReader s t h⟩
  · intro h
    exact ⟨_, Step.notifyAfterRead s t h⟩

/-- Witness for C4: the marking action at a concrete state. -/
theorem start_write_marks_then_drains_witness :
    ∃ s' : Machine 1, Step wit1 0 Label.incWriterWaiting s' ∧
      s'.writer_waiting = 1 ∧ s'.phase 0 = Phase.swCheck := by
  have hstep := Step.incWriterWaiting wit1 0 rfl
  have h := ((start_write_marks_then_drains wit1 0).1 Label.incWriterWaiting _ hstep).1 rfl
  exact ⟨_, hstep, by rw [h.1]; decide, h.2⟩

/-- Transport a step along an equality of its target state. -/
theorem step_cast {N : Nat} {s : Machine N} {t : Fin N} {l : Label}
    {s1 s2 : Machine N} (h : Step s t l s1) (he : s1 = s2) : Step s t l s2 :=
  he ▸ h

/-- Transport reachability along an equality of its target state. -/
theorem reach_cast {N : Nat} {a b c : Machine N} (h : Reach a b) (he : b = c) :
    Reach a c :=
  he ▸ h

/-- The initial state satisfies the write_mutex ownership invariant. -/
theorem winv_init (N : Nat) : WInv (initMachine N) := by
  intro u hu
  simp [initMachine, needsWriteMutex] at hu

/-- Every step preserves the write_mutex ownership invariant. -/
theorem winv_step {N : Nat} (s : Machine N) (t : Fin N) (l : Label)
    (s' : Machine N) (hP : WInv s) (h : Step s t l s') : WInv s' := by
  cases h with
  | callStartRead hp =>
      intro u hu
      have hu' : needsWriteMutex (Function.update s.phase t Phase.rCheck u) = true := hu
      by_cases hut : u = t
      · subst hut; rw [Function.update_same] at hu'; exact absurd hu' (by decide)
      · rw [Function.update_noteq hut] at hu'; exact hP u hu'
  | checkWriterEnter hp hg =>
      intro u hu
      have hu' : needsWriteMutex (Function.update s.phase t Phase.rAcqRead u) = true := hu
      by_cases hut : u = t
      · subst hut; rw [Function.update_same] at hu'; exact absurd hu' (by decide)
      · rw [Function.update_noteq hut] at hu'; exact hP u hu'
  | checkWriterSkip hp hg =>
      intro u hu
      have hu' : needsWriteMutex (Function.update s.phase t Phase.rInc u) = true := hu
      by_cases hut : u = t
      · subst hut; rw [Function.update_same] at hu'; exact absurd hu' (by decide)
      · rw [Function.update_noteq hut] at hu'; exact hP u hu'
  | acqReadMutex hp hm =>
      intro u hu
      have hu' : needsWriteMutex (Function.update s.phase t Phase.rWaitCheck u) = true := hu
      by_cases hut : u = t
      · subst hut; rw [Function.update_same] at hu'; exact absurd hu' (by decide)
      · rw [Function.update_noteq hut] at hu'; exact hP u hu'
  | waitCheckTrue hp hm hg =>
      intro u hu
      have hu' : needsWriteMutex (Function.update s.phase t Phase.rInc u) = true := hu
      by_cases hut : u = t
      · subst hut; rw [Function.update_same] at hu'; exact absurd hu' (by decide)
      · rw [Function.update_noteq hut] at hu'; exact hP u hu'
  | waitCheckFalse hp hm hg =>
      intro u hu
      have hu' : needsWriteMutex (Function.update s.phase t Phase.rAcqRead u) = true := hu
      by_cases hut : u = t
      · subst hut; rw [Function.update_same] at hu'; exact absurd hu' (by decide)
      · rw [Function.update_noteq hut] at hu'; exact hP u hu'
  | incReader hp =>
      intro u hu
      have hu' : needsWriteMutex (Function.update s.phase t Phase.reading u) = true := hu
      by_cases hut : u = t
      · subst hut; rw [Function.update_same] at hu'; exact absurd hu' (by decide)
      · rw [Function.update_noteq hut] at hu'; exact hP u hu'
  | decReader hp =>
      intro u hu
      have hu' : needsWriteMutex (Function.update s.phase t Phase.erNotify u) = true := hu
      by_cases hut : u = t
      · subst hut; rw [Function.update_same] at hu'; exact absurd hu' (by decide)
      · rw [Function.update_noteq hut] at hu'; exact hP u hu'
  | notifyAfterRead hp =>
      intro u hu
      have hu' : needsWriteMutex (Function.update s.phase t Phase.idle u) = true := hu
      by_cases hut : u = t
      · subst hut; rw [Function.update_same] at hu'; exact absurd hu' (by decide)
      · rw [Function.update_noteq hut] at hu'; exact hP u hu'
  | callStartWrite hp =>
      intro u hu
      have hu' : needsWriteMutex (Function.update s.phase t Phase.swAcq u) = true := hu
      by_cases hut : u = t
      · subst hut; rw [Function.update_same] at hu'; exact absurd hu' (by decide)
      · rw [Function.update_noteq hut] at hu'; exact hP u hu'
  | acqWriteMutex hp hm =>
      intro u hu
      have hu' : needsWriteMutex (Function.update s.phase t Phase.swIncr u) = true := hu
      by_cases hut : u = t
      · subst hut; rfl
      · rw [Function.update_noteq hut] at hu'
        have hx := hP u hu'
        rw [hm] at hx
        exact Option.noConfusion hx
  | incWriterWaiting hp =>
      intro u hu
      have hu' : needsWriteMutex (Function.update s.phase t Phase.swCheck u) = true := hu
      by_cases hut : u = t
      · subst hut; exact hP u (by rw [hp]; decide)
      · rw [Function.update_noteq hut] at hu'; exact hP u hu'
  | checkReadersZero hp hr =>
      intro u hu
      have hu' : needsWriteMutex (Function.update s.phase t Phase.writing u) = true := hu
      by_cases hut : u = t
      · subst hut; exact hP u (by rw [hp]; decide)
      · rw [Function.update_noteq hut] at hu'; exact hP u hu'
  | checkReadersPos hp hr =>
      intro u hu
      have hu' : needsWriteMutex (Function.update s.phase t Phase.swSleep u) = true := hu
      by_cases hut : u = t
      · subst hut; rw [Function.update_same] at hu'; exact absurd hu' (by decide)
      · rw [Function.update_noteq hut] at hu'
        have h1 := hP u hu'
        have h2 := hP t (by rw [hp]; decide)
        rw [h1] at h2
        exact absurd (Option.some_injective _ h2) hut
  | reacqWriteMutex hp hm =>
      intro u hu
      have hu' : needsWriteMutex (Function.update s.phase t Phase.swCheck u) = true := hu
      by_cases hut : u = t
      · subst hut; rfl
      · rw [Function.update_noteq hut] at hu'
        have hx := hP u hu'
        rw [hm] at hx
        exact Option.noConfusion hx
  | decWriterWaiting hp =>
      intro u hu
      have hu' : needsWriteMutex (Function.update s.phase t Phase.ewNotifyW u) = true := hu
      by_cases hut : u = t
      · subst hut; exact hP u (by rw [hp]; decide)
      · rw [Function.update_noteq hut] at hu'; exact hP u hu'
  | notifyWritersEnd hp =>
      intro u hu
      have hu' : needsWriteMutex (Function.update s.phase t Phase.ewUnlock u) = true := hu
      by_cases hut : u = t
      · subst hut; exact hP u (by rw [hp]; decide)
      · rw [Function.update_noteq hut] at hu'; exact hP u hu'
  | unlockWriteMutex hp =>
      intro u hu
      have hu' : needsWriteMutex (Function.update s.phase t Phase.ewNotifyR u) = true := hu
      by_cases hut : u = t
      · subst hut; rw [Function.update_same] at hu'; exact absurd hu' (by decide)
      · rw [Function.update_noteq hut] at hu'
        have h1 := hP u hu'
        have h2 := hP t (by rw [hp]; decide)
        rw [h1] at h2
        exact absurd (Option.some_injective _ h2) hut
  | notifyReadersEnd hp =>
      intro u hu
      have hu' : needsWriteMutex (Function.update s.phase t Phase.idle u) = true := hu
      by_cases hut : u = t
      · subst hut; rw [Function.update_same] at hu'; exact absurd hu' (by decide)
      · rw [Function.update_noteq hut] at hu'; exact hP u hu'

/-- The ownership invariant holds in every reachable state. -/
theorem winv_reach {N : Nat} (s : Machine N) (h : Reach (initMachine N) s) :
    WInv s :=
  reach_invariant WInv (initMachine N) s (winv_init N) (winv_step) h

/-- Thread 0 can run start_write to completion from the initial two-thread
state: it acquires write_mutex, increments writer_waiting, finds no readers
and returns holding the admission. -/
theorem reach_wState : Reach (initMachine 2) wState := by
  refine reach_cast (Reach.tail _ _ _ 0 Label.checkReaders
    (Reach.tail _ _ _ 0 Label.incWriterWaiting
      (Reach.tail _ _ _ 0 Label.acqWriteMutex
        (Reach.tail _ _ _ 0 Label.callStartWrite (Reach.refl _)
          (Step.callStartWrite _ 0 rfl))
        (Step.acqWriteMutex _ 0 rfl rfl))
      (Step.incWriterWaiting _ 0 rfl))
    (Step.checkReadersZero _ 0 rfl (by decide))) ?_
  apply machineEq
  · rfl
  · rfl
  · rfl
  · rfl
  · funext u; fin_cases u <;> rfl

/-- From wState, thread 1 runs the whole of start_read in three actions and
returns holding a read admission while thread 0 still holds the write
admission: the reachable state wrState. -/
theorem reach_wrState : Reach (initMachine 2) wrState := by
  refine reach_cast (Reach.tail _ _ _ 1 Label.incReader
    (Reach.tail _ _ _ 1 Label.checkWriter
      (Reach.tail _ _ _ 1 Label.callStartRead reach_wState
        (Step.callStartRead _ 1 rfl))
      (Step.checkWriterSkip _ 1 rfl (by decide)))
    (Step.incReader _ 1 rfl)) ?_
  apply machineEq
  · decide
  · rfl
  · rfl
  · rfl
  · funext u; fin_cases u <;> rfl

/-- From wState, thread 1 can call start_write, reaching the state in which
it is blocked acquiring write_mutex. -/
theorem reach_waState : Reach (initMachine 2) waState := by
  refine reach_cast (Reach.tail _ _ _ 1 Label.callStartWrite reach_wState
    (Step.callStartWrite _ 1 rfl)) ?_
  apply machineEq
  · rfl
  · rfl
  · rfl
  · rfl
  · funext u; fin_cases u <;> rfl

/-- C3: at most one thread holds write admission, and while one does, any
other thread inside start_write at the mutex acquisition has no enabled
action at all: it stays blocked until the admitted writer runs the
write_mutex unlock of end_write. -/
theorem write_admission_mutual_exclusion {N : Nat} (s : Machine N)
    (h : Reach (initMachine N) s) :
    (∀ t1 t2, s.phase t1 = Phase.writing → s.phase t2 = Phase.writing →
       t1 = t2) ∧
    (∀ t1 t2, s.phase t1 = Phase.writing → s.phase t2 = Phase.swAcq →
       ∀ l s', ¬ Step s t2 l s') := by
  have hinv : WInv s := winv_reach s h
  constructor
  · intro t1 t2 h1 h2
    have e1 := hinv t1 (by rw [h1]; decide)
    have e2 := hinv t2 (by rw [h2]; decide)
    rw [e1] at e2
    exact Option.some_injective _ e2
  · intro t1 t2 h1 h2 l s' hstep
    have e1 := hinv t1 (by rw [h1]; decide)
    cases hstep <;> simp_all

/-- Witness for C3: in the concrete reachable state waState, thread 0
holds the write admission and thread 1, inside start_write at the mutex
acquisition, has no enabled action. -/
theorem write_admission_mutual_exclusion_witness :
    waState.phase 0 = Phase.writing ∧ waState.phase 1 = Phase.swAcq ∧
    ∀ l s', ¬ Step waState 1 l s' := by
  refine ⟨rfl, rfl, fun l s' hs => ?_⟩
  exact (write_admission_mutual_exclusion waState reach_waState).2 0 1 rfl rfl l s' hs

/-- C1 is refuted by the code: from the reachable state wState, in which
thread 0 has returned from start_write and holds the write admission with
writer_waiting nonzero, thread 1 runs start_read from call to return in
three actions, never blocking.  The inverted test at line 47 of
src/read_write_lock.h sends the call into the wait branch exactly when no
writer is pending, so with a writer pending it falls through, increments
reader_count and returns while the writer has not run end_write. -/
theorem start_read_ignores_pending_writer :
    Reach (initMachine 2) wState ∧
    wState.phase 0 = Phase.writing ∧ wState.writer_waiting = 1 ∧
    wState.phase 1 = Phase.idle ∧
    (∃ u1 u2 : Machine 2,
       Step wState 1 Label.callStartRead u1 ∧
       Step u1 1 Label.checkWriter u2 ∧
       Step u2 1 Label.incReader wrState) ∧
    wrState.phase 1 = Phase.reading ∧ wrState.phase 0 = Phase.writing ∧
    wrState.reader_count = 1 := by
  refine ⟨reach_wState, rfl, rfl, rfl,
    ⟨_, _, Step.callStartRead _ 1 rfl, Step.checkWriterSkip _ 1 rfl (by decide),
      step_cast (Step.incReader _ 1 rfl) ?_⟩, rfl, rfl, rfl⟩
  apply machineEq
  · decide
  · rfl
  · rfl
  · rfl
  · funext u; fin_cases u <;> rfl

/-- C2 is refuted by the code: the state wrState is reachable, and in it
reader_count is positive while thread 0 is between a returned start_write
and its end_write, so active readers and an active writer are not mutually
exclusive in the implementation. -/
theorem reader_active_while_writer_active :
    ∃ s : Machine 2, Reach (initMachine 2) s ∧
      s.phase 0 = Phase.writing ∧ s.reader_count = 1 ∧ 0 < s.reader_count :=
  ⟨wrState, reach_wrState, rfl, rfl, by decide⟩

/-- Updating one thread phase changes the reader sum by the difference of
the indicator at the old and the new phase. -/
theorem readerSum_update {N : Nat} (p : Fin N → Phase) (t : Fin N) (v : Phase) :
    readerSum (Function.update p t v) =
      readerSum p - (if p t = Phase.reading then (1 : Int) else 0)
        + (if v = Phase.reading then (1 : Int) else 0) := by
  unfold readerSum
  rw [← Finset.add_sum_erase Finset.univ
        (fun u => if Function.update p t v u = Phase.reading then (1 : Int) else 0)
        (Finset.mem_univ t),
      ← Finset.add_sum_erase Finset.univ
        (fun u => if p u = Phase.reading then (1 : Int) else 0)
        (Finset.mem_univ t)]
  have hcong : ∑ u ∈ Finset.univ.erase t,
      (if Function.update p t v u = Phase.reading then (1 : Int) else 0)
      = ∑ u ∈ Finset.univ.erase t,
      (if p u = Phase.reading then (1 : Int) else 0) := by
    refine Finset.sum_congr rfl fun u hu => ?_
    rw [Function.update_noteq (Finset.ne_of_mem_erase hu)]
  rw [hcong, Function.update_same]
  ring

/-- A full write cycle from the freshly constructed lock returns the
machine exactly to the initial state: the increment of line 69 and the
decrement of line 82 cancel modulo 256 and the mutex is released. -/
theorem cycle_from_init {N : Nat} (t : Fin N) (s' : Machine N)
    (h : WriteCycle t (initMachine N) s') : s' = initMachine N := by
  obtain ⟨s1, s2, s3, s4, s5, s6, s7, h1, h2, h3, h4, h5, h6, h7, h8⟩ := h
  cases h1 with
  | callStartWrite hp1 =>
    cases h2 with
    | acqWriteMutex hp2 hm2 =>
      cases h3 with
      | incWriterWaiting hp3 =>
        cases h4 with
        | checkReadersPos hp4 hr4 =>
          simp [initMachine] at hr4
        | checkReadersZero hp4 hr4 =>
          cases h5 with
          | decWriterWaiting hp5 =>
            cases h6 with
            | notifyAfterRead hp6 => simp at hp6
            | notifyWritersEnd hp6 =>
              cases h7 with
              | unlockWriteMutex hp7 =>
                cases h8 with
                | notifyReadersEnd hp8 =>
                  apply machineEq
                  · simp [initMachine]
                  · simp [initMachine]
                  · simp [initMachine]
                  · simp [initMachine]
                  · funext u
                    by_cases hut : u = t
                    · subst hut
                      simp [Function.update_same, initMachine]
                    · simp [Function.update_noteq hut, initMachine]

/-- C5: any number of matched start_write and end_write cycles by a single
thread on a freshly constructed lock leaves writer_waiting and
reader_count at their construction values 0: no drift in the counters. -/
theorem write_cycles_no_drift (N : Nat) (t : Fin N) (n : Nat) (s' : Machine N)
    (h : NCycles t n (initMachine N) s') :
    s'.writer_waiting = 0 ∧ s'.reader_count = 0 := by
  suffices hs : ∀ m s2, NCycles t m (initMachine N) s2 → s2 = initMachine N by
    rw [hs n s' h]
    exact ⟨rfl, rfl⟩
  intro m
  induction m with
  | zero => intro s2 h0; exact h0
  | succ k ih =>
    intro s2 hk
    obtain ⟨mid, hc, hrest⟩ := hk
    rw [cycle_from_init t mid hc] at hrest
    exact ih s2 hrest

/-- Witness for C5: one concrete write cycle on a one-thread machine. -/
theorem write_cycles_no_drift_witness :
    ∃ s' : Machine 1, NCycles 0 1 (initMachine 1) s' ∧
      s'.writer_waiting = 0 ∧ s'.reader_count = 0 := by
  have hcyc : ∃ s2, WriteCycle (0 : Fin 1) (initMachine 1) s2 :=
    ⟨_, _, _, _, _, _, _, _,
      Step.callStartWrite _ 0 rfl,
      Step.acqWriteMutex _ 0 rfl rfl,
      Step.incWriterWaiting _ 0 rfl,
      Step.checkReadersZero _ 0 rfl (by decide),
      Step.decWriterWaiting _ 0 rfl,
      Step.notifyWritersEnd _ 0 rfl,
      Step.unlockWriteMutex _ 0 rfl,
      Step.notifyReadersEnd _ 0 rfl⟩
  obtain ⟨sf, hc⟩ := hcyc
  have hnc : NCycles (0 : Fin 1) 1 (initMachine 1) sf := ⟨sf, hc, rfl⟩
  exact ⟨sf, hnc, (write_cycles_no_drift 1 0 1 sf hnc).1,
    (write_cycles_no_drift 1 0 1 sf hnc).2⟩

/-- Thread 0 of the 257-thread machine runs start_read to completion from
the initial state: with no writer pending the inverted test sends it
through the wait branch, whose predicate holds at once, and it returns
holding a read admission. -/
theorem wrap_zero : Reach (initMachine 257) (wrapState 0) := by
  refine reach_cast (Reach.tail _ _ _ 0 Label.incReader
    (Reach.tail _ _ _ 0 Label.waitCheck
      (Reach.tail _ _ _ 0 Label.acqReadMutex
        (Reach.tail _ _ _ 0 Label.checkWriter
          (Reach.tail _ _ _ 0 Label.callStartRead (Reach.refl _)
            (Step.callStartRead _ 0 rfl))
          (Step.checkWriterEnter _ 0 rfl (by decide)))
        (Step.acqReadMutex _ 0 rfl rfl))
      (Step.waitCheckTrue _ 0 rfl rfl (by decide)))
    (Step.incReader _ 0 rfl)) ?_
  apply machineEq
  · decide
  · decide
  · rfl
  · rfl
  · funext v
    show (Function.update (Function.update (Function.update (Function.update
        (Function.update (initMachine 257).phase 0 Phase.rCheck) 0 Phase.rAcqRead)
        0 Phase.rWaitCheck) 0 Phase.rInc) 0 Phase.reading) v
      = (wrapState 0).phase v
    by_cases hv : v = (0 : Fin 257)
    · subst hv; rfl
    · rw [Function.update_noteq hv, Function.update_noteq hv,
          Function.update_noteq hv, Function.update_noteq hv,
          Function.update_noteq hv]
      have h0 : v.val ≠ 0 := fun hc => hv (Fin.ext hc)
      show Phase.idle
        = (if v.val = 0 then Phase.reading
           else if v.val ≤ 0 then Phase.swSleep else Phase.idle)
      rw [if_neg h0, if_neg (by omega)]

/-- With the reader of wrap_zero still active, writer thread k+1 runs
start_write up to the reader-drain wait: it acquires write_mutex,
increments writer_waiting modulo 256, finds reader_count positive and
enters the wait, releasing write_mutex. -/
theorem wrap_succ (k : Nat) (hk : k < 256)
    (h : Reach (initMachine 257) (wrapState k)) :
    Reach (initMachine 257) (wrapState (k + 1)) := by
  have hlt : k + 1 < 257 := by omega
  have hp1 : (wrapState k).phase ⟨k + 1, hlt⟩ = Phase.idle := by
    show (if (k + 1 : Nat) = 0 then Phase.reading
          else if k + 1 ≤ k then Phase.swSleep else Phase.idle) = Phase.idle
    rw [if_neg (by omega), if_neg (by omega)]
  refine reach_cast (Reach.tail _ _ _ ⟨k + 1, hlt⟩ Label.checkReaders
    (Reach.tail _ _ _ ⟨k + 1, hlt⟩ Label.incWriterWaiting
      (Reach.tail _ _ _ ⟨k + 1, hlt⟩ Label.acqWriteMutex
        (Reach.tail _ _ _ ⟨k + 1, hlt⟩ Label.callStartWrite h
          (Step.callStartWrite _ _ hp1))
        (Step.acqWriteMutex _ _ (by simp) rfl))
      (Step.incWriterWaiting _ _ (by simp)))
    (Step.checkReadersPos _ _ (by simp) (by show (0 : Int) < 1; norm_num))) ?_
  apply machineEq
  · rfl
  · show ((wrapState k).writer_waiting + 1) % 256 = (k + 1) % 256
    show (k % 256 + 1) % 256 = (k + 1) % 256
    omega
  · rfl
  · rfl
  · funext v
    show (Function.update (Function.update (Function.update (Function.update
        (wrapState k).phase ⟨k + 1, hlt⟩ Phase.swAcq) ⟨k + 1, hlt⟩ Phase.swIncr)
        ⟨k + 1, hlt⟩ Phase.swCheck) ⟨k + 1, hlt⟩ Phase.swSleep) v
      = (wrapState (k + 1)).phase v
    by_cases hv : v = (⟨k + 1, hlt⟩ : Fin 257)
    · subst hv
      rw [Function.update_same]
      show Phase.swSleep
        = (if (k + 1 : Nat) = 0 then Phase.reading
           else if k + 1 ≤ k + 1 then Phase.swSleep else Phase.idle)
      rw [if_neg (by omega), if_pos (by omega)]
    · rw [Function.update_noteq hv, Function.update_noteq hv,
          Function.update_noteq hv, Function.update_noteq hv]
      have hvk : v.val ≠ k + 1 := fun hc => hv (Fin.ext hc)
      show (if v.val = 0 then Phase.reading
            else if v.val ≤ k then Phase.swSleep else Phase.idle)
        = (if v.val = 0 then Phase.reading
           else if v.val ≤ k + 1 then Phase.swSleep else Phase.idle)
      by_cases h0 : v.val = 0
      · rw [if_pos h0, if_pos h0]
      · rw [if_neg h0, if_neg h0]
        by_cases hkv : v.val ≤ k
        · rw [if_pos hkv, if_pos (by omega)]
        · rw [if_neg hkv, if_neg (by omega)]

/-- The pending-writer pileup states are all reachable. -/
theorem wrap_all (k : Nat) (hk : k ≤ 256) :
    Reach (initMachine 257) (wrapState k) := by
  induction k with
  | zero => exact wrap_zero
  | succ n ih => exact wrap_succ n (by omega) (ih (by omega))

/-- C10: writer_waiting is an 8-bit counter, not a boolean: start_write
adds 1 and end_write subtracts 1 modulo 2 to the 8, so a reachable state
exists in which all 256 writer threads are simultaneously pending (each has
announced intent at line 69 and sits in the reader-drain wait), yet the
counter has wrapped to 0 and the NOT_WRITING test reports no writer
pending.  256 pending writers is more than 127. -/
theorem writer_waiting_wraps_mod_256 :
    ∃ s : Machine 257, Reach (initMachine 257) s ∧
      (∀ t : Fin 257, t ≠ 0 → s.phase t = Phase.swSleep) ∧
      s.writer_waiting = 0 ∧
      (writer_is_not_writing s.writer_waiting).2 = true ∧
      127 < 256 := by
  refine ⟨wrapState 256, wrap_all 256 (by omega), ?_, rfl, by decide, by omega⟩
  intro t ht
  have h0 : t.val ≠ 0 := fun hc => ht (Fin.ext hc)
  have h1 : t.val ≤ 256 := Nat.lt_succ_iff.mp t.isLt
  show (if t.val = 0 then Phase.reading
        else if t.val ≤ 256 then Phase.swSleep else Phase.idle) = Phase.swSleep
  rw [if_neg h0, if_pos h1]

/-- The reader sum is a sum of nonnegative indicators. -/
theorem readerSum_nonneg {N : Nat} (p : Fin N → Phase) : 0 ≤ readerSum p :=
  Finset.sum_nonneg fun u hu => by split <;> decide

/-- The reader sum never exceeds the number of threads. -/
theorem readerSum_le {N : Nat} (p : Fin N → Phase) : readerSum p ≤ (N : Int) := by
  unfold readerSum
  calc ∑ u, (if p u = Phase.reading then (1 : Int) else 0)
      ≤ ∑ u : Fin N, (1 : Int) :=
        Finset.sum_le_sum fun u hu => by split <;> decide
    _ = (N : Int) := by simp

/-- If some thread is not at the reading phase, the reader sum is at most
the number of threads minus one. -/
theorem readerSum_succ_le {N : Nat} (p : Fin N → Phase) (t : Fin N)
    (h : p t ≠ Phase.reading) : readerSum p + 1 ≤ (N : Int) := by
  unfold readerSum
  rw [← Finset.add_sum_erase Finset.univ
        (fun u => if p u = Phase.reading then (1 : Int) else 0)
        (Finset.mem_univ t), if_neg h]
  have h1 : ∑ u ∈ Finset.univ.erase t,
      (if p u = Phase.reading then (1 : Int) else 0) ≤ ((N - 1 : Nat) : Int) := by
    calc ∑ u ∈ Finset.univ.erase t, (if p u = Phase.reading then (1 : Int) else 0)
        ≤ ∑ u ∈ Finset.univ.erase t, (1 : Int) :=
          Finset.sum_le_sum fun u hu => by split <;> decide
      _ = (((Finset.univ.erase t).card : Nat) : Int) := by simp
      _ = ((N - 1 : Nat) : Int) := by
          rw [Finset.card_erase_of_mem (Finset.mem_univ t)]
          simp
  have h2 : 1 ≤ N := t.pos
  omega

/-- If some thread is at the reading phase, the reader sum is at least one. -/
theorem one_le_readerSum {N : Nat} (p : Fin N → Phase) (t : Fin N)
    (h : p t = Phase.reading) : 1 ≤ readerSum p := by
  unfold readerSum
  rw [← Finset.add_sum_erase Finset.univ
        (fun u => if p u = Phase.reading then (1 : Int) else 0)
        (Finset.mem_univ t), if_pos h]
  have h1 : 0 ≤ ∑ u ∈ Finset.univ.erase t,
      (if p u = Phase.reading then (1 : Int) else 0) :=
    Finset.sum_nonneg fun u hu => by split <;> decide
  omega

/-- The 32-bit wrap is the identity on the signed int range. -/
theorem wrap32_eq (x : Int) (h1 : 0 ≤ x) (h2 : x < 2147483648) : wrap32 x = x := by
  unfold wrap32
  omega

/-- Induction principle for the 32-bit relation. -/
theorem reach32_invariant {N : Nat} (P : Machine N → Prop) (s0 s : Machine N)
    (h0 : P s0) (hstep : ∀ s1 t l s2, P s1 → Step32 s1 t l s2 → P s2)
    (h : Reach32 s0 s) : P s := by
  induction h with
  | refl => exact h0
  | tail s2 s3 t l hr hs ih => exact hstep s2 t l s3 ih hs

/-- Transport 32-bit reachability along an equality of its target state. -/
theorem reach32_cast {N : Nat} {a b c : Machine N} (h : Reach32 a b)
    (he : b = c) : Reach32 a c :=
  he ▸ h

/-- With fewer than 2 to the 31 threads, every 32-bit step preserves the
exact accounting of reader_count: the counter always equals the number of
threads holding a read admission, because that number stays inside the
signed int range and the wrap is the identity there. -/
theorem rinv32_step {N : Nat} (hN : N < 2147483648) :
    ∀ (s : Machine N) (t : Fin N) (l : Label) (s' : Machine N),
      s.reader_count = readerSum s.phase → Step32 s t l s' →
      s'.reader_count = readerSum s'.phase := by
  intro s t l s' hP h
  cases h with
  | callStartRead hp =>
      show s.reader_count = readerSum (Function.update s.phase t Phase.rCheck)
      rw [readerSum_update, hp]; simpa using hP
  | checkWriterEnter hp hg =>
      show s.reader_count = readerSum (Function.update s.phase t Phase.rAcqRead)
      rw [readerSum_update, hp]; simpa using hP
  | checkWriterSkip hp hg =>
      show s.reader_count = readerSum (Function.update s.phase t Phase.rInc)
      rw [readerSum_update, hp]; simpa using hP
  | acqReadMutex hp hm =>
      show s.reader_count = readerSum (Function.update s.phase t Phase.rWaitCheck)
      rw [readerSum_update, hp]; simpa using hP
  | waitCheckTrue hp hm hg =>
      show s.reader_count = readerSum (Function.update s.phase t Phase.rInc)
      rw [readerSum_update, hp]; simpa using hP
  | waitCheckFalse hp hm hg =>
      show s.reader_count = readerSum (Function.update s.phase t Phase.rAcqRead)
      rw [readerSum_update, hp]; simpa using hP
  | incReader hp =>
      show wrap32 (s.reader_count + 1)
        = readerSum (Function.update s.phase t Phase.reading)
      rw [readerSum_update, hp, hP]
      have h0 : 0 ≤ readerSum s.phase := readerSum_nonneg s.phase
      have hb : readerSum s.phase + 1 ≤ (N : Int) :=
        readerSum_succ_le s.phase t (by rw [hp]; decide)
      rw [if_neg (by decide : ¬ (Phase.rInc = Phase.reading))]
      rw [if_pos (rfl : Phase.reading = Phase.reading)]
      rw [wrap32_eq (readerSum s.phase + 1) (by omega) (by omega)]
      ring
  | decReader hp =>
      show wrap32 (s.reader_count - 1)
        = readerSum (Function.update s.phase t Phase.erNotify)
      rw [readerSum_update, hp, hP]
      have h1 : 1 ≤ readerSum s.phase := one_le_readerSum s.phase t hp
      have h2 : readerSum s.phase ≤ (N : Int) := readerSum_le s.phase
      rw [if_pos (rfl : Phase.reading = Phase.reading)]
      rw [if_neg (by decide : ¬ (Phase.erNotify = Phase.reading))]
      rw [wrap32_eq (readerSum s.phase - 1) (by omega) (by omega)]
      ring
  | notifyAfterRead hp =>
      show s.reader_count = readerSum (Function.update s.phase t Phase.idle)
      rw [readerSum_update, hp]; simpa using hP
  | callStartWrite hp =>
      show s.reader_count = readerSum (Function.update s.phase t Phase.swAcq)
      rw [readerSum_update, hp]; simpa using hP
  | acqWriteMutex hp hm =>
      show s.reader_count = readerSum (Function.update s.phase t Phase.swIncr)
      rw [readerSum_update, hp]; simpa using hP
  | incWriterWaiting hp =>
      show s.reader_count = readerSum (Function.update s.phase t Phase.swCheck)
      rw [readerSum_update, hp]; simpa using hP
  | checkReadersZero hp hr =>
      show s.reader_count = readerSum (Function.update s.phase t Phase.writing)
      rw [readerSum_update, hp]; simpa using hP
  | checkReadersPos hp hr =>
      show s.reader_count = readerSum (Function.update s.phase t Phase.swSleep)
      rw [readerSum_update, hp]; simpa using hP
  | reacqWriteMutex hp hm =>
      show s.reader_count = readerSum (Function.update s.phase t Phase.swCheck)
      rw [readerSum_update, hp]; simpa using hP
  | decWriterWaiting hp =>
      show s.reader_count = readerSum (Function.update s.phase t Phase.ewNotifyW)
      rw [readerSum_update, hp]; simpa using hP
  | notifyWritersEnd hp =>
      show s.reader_count = readerSum (Function.update s.phase t Phase.ewUnlock)
      rw [readerSum_update, hp]; simpa using hP
  | unlockWriteMutex hp =>
      show s.reader_count = readerSum (Function.update s.phase t Phase.ewNotifyR)
      rw [readerSum_update, hp]; simpa using hP
  | notifyReadersEnd hp =>
      show s.reader_count = readerSum (Function.update s.phase t Phase.idle)
      rw [readerSum_update, hp]; simpa using hP

/-- C7 amended: with the 32-bit wrap of reader_count modelled faithfully,
and under the caller contract built into the machine, reader_count is
never negative in every reachable state provided fewer than 2 to the 31
threads use the lock: the counter then always equals the number of held
read admissions, which stays inside the signed int range. -/
theorem reader_count_nonneg_bounded {N : Nat} (hN : N < 2147483648)
    (s : Machine N) (h : Reach32 (initMachine N) s) : 0 ≤ s.reader_count := by
  have hinv : s.reader_count = readerSum s.phase :=
    reach32_invariant (fun m => m.reader_count = readerSum m.phase)
      (initMachine N) s (by simp [initMachine, readerSum]) (rinv32_step hN) h
  rw [hinv]
  exact readerSum_nonneg s.phase

/-- Witness for the amended C7: a one-thread machine acquires one read
admission in five 32-bit steps and the count is nonnegative. -/
theorem reader_count_nonneg_bounded_witness :
    ∃ s : Machine 1, Reach32 (initMachine 1) s ∧ 0 ≤ s.reader_count := by
  have hr : ∃ s : Machine 1, Reach32 (initMachine 1) s :=
    ⟨_, Reach32.tail _ _ _ 0 Label.incReader
      (Reach32.tail _ _ _ 0 Label.waitCheck
        (Reach32.tail _ _ _ 0 Label.acqReadMutex
          (Reach32.tail _ _ _ 0 Label.checkWriter
            (Reach32.tail _ _ _ 0 Label.callStartRead (Reach32.refl _)
              (Step32.callStartRead _ 0 rfl))
            (Step32.checkWriterEnter _ 0 rfl (by decide)))
          (Step32.acqReadMutex _ 0 rfl rfl))
        (Step32.waitCheckTrue _ 0 rfl rfl (by decide)))
      (Step32.incReader _ 0 rfl)⟩
  obtain ⟨s, hs⟩ := hr
  exact ⟨s, hs, reader_count_nonneg_bounded (by omega) s hs⟩

/-- The empty pile state is the initial state of the 2 to the 31 thread
machine. -/
theorem pile32_zero : Reach32 (initMachine 2147483648) (pile32State 0) := by
  refine reach32_cast (Reach32.refl _) ?_
  apply machineEq
  · show (0 : Int) = wrap32 ((0 : Nat) : Int)
    unfold wrap32
    decide
  · rfl
  · rfl
  · rfl
  · funext v
    show Phase.idle = (if v.val < 0 then Phase.reading else Phase.idle)
    rw [if_neg (by omega)]

/-- With k admissions already outstanding, thread k runs start_read to
completion in five 32-bit steps (no writer is pending, so the wait branch
is entered and its predicate holds at once), taking the pile from k to
k + 1 held admissions. -/
theorem pile32_succ (k : Nat) (hk : k < 2147483648)
    (h : Reach32 (initMachine 2147483648) (pile32State k)) :
    Reach32 (initMachine 2147483648) (pile32State (k + 1)) := by
  have hp1 : (pile32State k).phase ⟨k, hk⟩ = Phase.idle := by
    show (if k < k then Phase.reading else Phase.idle) = Phase.idle
    rw [if_neg (by omega)]
  refine reach32_cast (Reach32.tail _ _ _ ⟨k, hk⟩ Label.incReader
    (Reach32.tail _ _ _ ⟨k, hk⟩ Label.waitCheck
      (Reach32.tail _ _ _ ⟨k, hk⟩ Label.acqReadMutex
        (Reach32.tail _ _ _ ⟨k, hk⟩ Label.checkWriter
          (Reach32.tail _ _ _ ⟨k, hk⟩ Label.callStartRead h
            (Step32.callStartRead _ _ hp1))
          (Step32.checkWriterEnter _ _ (by simp)
            (by show boolToChar (writer_is_not_writing 0).2 ≠ NOT_WRITING; decide)))
        (Step32.acqReadMutex _ _ (by simp) rfl))
      (Step32.waitCheckTrue _ _ (by simp) rfl
        (by show (writer_is_not_writing ((writer_is_not_writing 0).1)).2 = true; decide)))
    (Step32.incReader _ _ (by simp))) ?_
  apply machineEq
  · show wrap32 (wrap32 ((k : Nat) : Int) + 1) = wrap32 (((k + 1 : Nat)) : Int)
    unfold wrap32
    push_cast
    omega
  · show (writer_is_not_writing ((writer_is_not_writing 0).1)).1 = 0
    decide
  · rfl
  · rfl
  · funext v
    show (Function.update (Function.update (Function.update (Function.update
        (Function.update (pile32State k).phase ⟨k, hk⟩ Phase.rCheck) ⟨k, hk⟩
        Phase.rAcqRead) ⟨k, hk⟩ Phase.rWaitCheck) ⟨k, hk⟩ Phase.rInc) ⟨k, hk⟩
        Phase.reading) v
      = (pile32State (k + 1)).phase v
    by_cases hv : v = (⟨k, hk⟩ : Fin 2147483648)
    · subst hv
      rw [Function.update_same]
      show Phase.reading
        = (if k < k + 1 then Phase.reading else Phase.idle)
      rw [if_pos (by omega)]
    · rw [Function.update_noteq hv, Function.update_noteq hv,
          Function.update_noteq hv, Function.update_noteq hv,
          Function.update_noteq hv]
      have hvk : v.val ≠ k := fun hc => hv (Fin.ext hc)
      show (if v.val < k then Phase.reading else Phase.idle)
        = (if v.val < k + 1 then Phase.reading else Phase.idle)
      by_cases hk2 : v.val < k
      · rw [if_pos hk2, if_pos (by omega)]
      · rw [if_neg hk2, if_neg (by omega)]

/-- Every pile state up to the full 2 to the 31 readers is reachable. -/
theorem pile32_all (k : Nat) (hk : k ≤ 2147483648) :
    Reach32 (initMachine 2147483648) (pile32State k) := by
  induction k with
  | zero => exact pile32_zero
  | succ n ih => exact pile32_succ n (by omega) (ih (by omega))

/-- C7 is refuted on the faithful 32-bit model: a contract-respecting
execution in which 2 to the 31 threads each complete one start_read (and
no end_read ever runs) reaches a state whose reader_count is negative,
because the std::atomic_int increments wrap modulo 2 to the 32. -/
theorem reader_count_wraps_negative :
    ∃ s : Machine 2147483648, Reach32 (initMachine 2147483648) s ∧
      (∀ t : Fin 2147483648, s.phase t = Phase.reading) ∧
      s.reader_count < 0 := by
  refine ⟨pile32State 2147483648, pile32_all 2147483648 (le_refl _), ?_, ?_⟩
  · intro t
    show (if t.val < 2147483648 then Phase.reading else Phase.idle) = Phase.reading
    rw [if_pos t.isLt]
  · show wrap32 ((2147483648 : Nat) : Int) < 0
    unfold wrap32
    decide
